import Mathlib

/-!
Verification of the bird-tracker aggregation and CRUD layer.

The definitions below are a shallow embedding of `birdapp`: the record
store is a list of records, Django querysets are list filters, and every
view-level operation is a pure function from the store (plus the parsed
request parameters) to the store and the response data.  Dates are
year/month/day triples compared lexicographically, matching Python
`datetime.date` ordering.
-/

namespace Birdapp

/-- A calendar date (`models.DateField`): year, month, day, compared
lexicographically like Python `datetime.date`. -/
structure Date where
  y : Nat
  m : Nat
  d : Nat
deriving DecidableEq

/-- Lexicographic `≤` on dates, as Python compares `datetime.date`. -/
def dle (a b : Date) : Prop :=
  a.y < b.y ∨ (a.y = b.y ∧ (a.m < b.m ∨ (a.m = b.m ∧ a.d ≤ b.d)))

instance (a b : Date) : Decidable (dle a b) := by
  unfold dle; exact inferInstance

/-- Strict `<` on dates. -/
def dlt (a b : Date) : Prop := ¬ dle b a

instance (a b : Date) : Decidable (dlt a b) := by
  unfold dlt; exact inferInstance

/-! ## The record store (models.py)

Records carry their primary key explicitly; foreign keys are the target's
key, nullable ones an `Option`.  A queryset is a `List` of records in the
store's row order. -/

/-- `models.Bird`.  The nullable text columns are kept as `Option String`. -/
structure BirdRec where
  id : Nat
  english_name : String
  latin_name : Option String
  french_name : Option String
  species_status : Option String
  family : Option Nat
deriving DecidableEq

/-- `models.Location`: `parent_location` is a nullable self-reference. -/
structure Loc where
  id : Nat
  location_name : String
  parent_location : Option Nat
deriving DecidableEq

/-- `models.Trip`. -/
structure TripRec where
  id : Nat
  trip_name : String
  start_date : Date
  end_date : Date
  description : String
deriving DecidableEq

/-- `models.Sighting`: `bird` and `location` are required foreign keys,
`trip` is nullable (`null=True, blank=True`). -/
structure Sighting where
  id : Nat
  bird : Nat
  location : Nat
  trip : Option Nat
  date_seen : Date
  heard_not_seen : Bool
  count : Int
  notes : String
deriving DecidableEq

/-! ## Species summary (list_views.py, lifelist)

`Sighting.objects.values('bird').annotate(first_seen=Min('date_seen'),
last_seen=Max('date_seen')).order_by('-last_seen')` groups the sightings
by bird and aggregates.  SQL does not fix the enumeration order of the
groups; the embedding enumerates them in first-occurrence order of the
bird in the store's row order, which is the arbitrary-but-stable record
order the spec speaks of. -/

/-- Distinct values in first-occurrence order (the grouping keys of
`values('bird')`); `seen` holds keys already emitted. -/
def dedupFirst (seen : List Nat) : List Nat → List Nat
  | [] => []
  | x :: xs => if x ∈ seen then dedupFirst seen xs else x :: dedupFirst (x :: seen) xs

/-- The `date_seen` column of the group of `b`. -/
def datesOf (b : Nat) (ss : List Sighting) : List Date :=
  (ss.filter (fun s => decide (s.bird = b))).map (fun s => s.date_seen)

/-- SQL `Min` over a non-empty column `d :: ds`. -/
def minD (d : Date) (ds : List Date) : Date :=
  ds.foldl (fun acc x => if dle x acc then x else acc) d

/-- SQL `Max` over a non-empty column `d :: ds`. -/
def maxD (d : Date) (ds : List Date) : Date :=
  ds.foldl (fun acc x => if dle acc x then x else acc) d

/-- One row of `values('bird').annotate(first_seen=Min(..), last_seen=Max(..))`. -/
structure Row where
  bird : Nat
  first : Date
  last : Date
deriving DecidableEq

/-- The aggregate row of bird `b` (the `[]` branch is unreachable: `b` is
only grouped when it has a sighting). -/
def mkRow (ss : List Sighting) (b : Nat) : Row :=
  match datesOf b ss with
  | [] => ⟨b, ⟨0, 0, 0⟩, ⟨0, 0, 0⟩⟩
  | d :: ds => ⟨b, minD d ds, maxD d ds⟩

/-- The grouped, annotated queryset before ordering. -/
def birdAggRows (ss : List Sighting) : List Row :=
  (dedupFirst [] (ss.map (fun s => s.bird))).map (mkRow ss)

/-- Insertion step of `.order_by('-last_seen')`: descending by `last`,
rows with equal `last` keep their relative group order. -/
def insertDesc (r : Row) : List Row → List Row
  | [] => [r]
  | x :: xs => if dle x.last r.last then r :: x :: xs else x :: insertDesc r xs

/-- `.order_by('-last_seen')` as a stable sort over the group order. -/
def orderRows (l : List Row) : List Row :=
  l.foldr insertDesc []

/-- One entry of the life list as the view builds it. -/
structure SummaryEntry where
  bird : Nat
  first_seen : Date
  last_seen : Date
  total : Nat
deriving DecidableEq

/-- The view's per-row body: `total_sightings` is a separate count query
for the row's bird. -/
def toEntry (ss : List Sighting) (r : Row) : SummaryEntry :=
  ⟨r.bird, r.first, r.last, (ss.filter (fun s => decide (s.bird = r.bird))).length⟩

/-- `lifelist`'s guard: the `first_sighting` lookup
(`filter(bird_id=…, date_seen=first_seen).first()`) found a record. -/
def firstGuard (ss : List Sighting) (r : Row) : Bool :=
  (ss.find? (fun s => decide (s.bird = r.bird ∧ s.date_seen = r.first))).isSome

/-- `lifelist`'s entry loop: every aggregate row whose `first_sighting`
lookup finds a record yields an entry. -/
def lifelist_entries (ss : List Sighting) : List SummaryEntry :=
  ((orderRows (birdAggRows ss)).filter (firstGuard ss)).map (toEntry ss)

/-! ## New-species deltas (list_views.py, yearlist and monthlist) -/

/-- `yearlist`'s `new_species`: distinct birds of the given year minus the
birds of any sighting in a strictly earlier year
(`date_seen__year__lt=year`), as Python set difference. -/
def yearlist_new_species (year : Nat) (ss : List Sighting) : Nat :=
  let cur : List Nat := dedupFirst []
    ((ss.filter (fun s => decide (s.date_seen.y = year))).map (fun s => s.bird))
  let prev : List Nat :=
    (ss.filter (fun s => decide (s.date_seen.y < year))).map (fun s => s.bird)
  (cur.filter (fun b => decide (b ∉ prev))).length

/-- `monthlist`'s `new_species`: distinct birds of the given (year, month)
minus the birds of any sighting dated strictly before
`date(year, month, 1)` (`date_seen__lt=month_start`). -/
def monthlist_new_species (year month : Nat) (ss : List Sighting) : Nat :=
  let cur : List Nat := dedupFirst []
    ((ss.filter (fun s => decide (s.date_seen.y = year ∧ s.date_seen.m = month))).map
      (fun s => s.bird))
  let prev : List Nat :=
    (ss.filter (fun s => decide (dlt s.date_seen ⟨year, month, 1⟩))).map (fun s => s.bird)
  (cur.filter (fun b => decide (b ∉ prev))).length

/-! ## Location hierarchy traversal (location_views.py)

`get_all_child_locations` recurses over `parent_location` links with no
depth cap; the embedding indexes the recursion by fuel, `none` meaning the
call has not completed within that recursion depth.  The source function
completes on an input exactly when some fuel suffices. -/

/-- `Location.objects.filter(parent_location=location)`, as ids. -/
def childIds (db : List Loc) (i : Nat) : List Nat :=
  (db.filter (fun l => l.parent_location == some i)).map (fun l => l.id)

/-- `all_children.extend(get_all_child_locations(child))`: extend the
accumulated list with one child's recursive result, propagating
non-completion. -/
def accChild (f : Nat → Option (List Nat)) (acc : Option (List Nat)) (c : Nat) :
    Option (List Nat) :=
  match acc, f c with
  | some l, some r => some (l ++ r)
  | _, _ => none

/-- `get_all_child_locations`, fuel-indexed: the direct children followed
by each child's recursive descendants. -/
def get_all_child_locations (db : List Loc) : Nat → Nat → Option (List Nat)
  | 0, _ => none
  | fuel + 1, i =>
    (childIds db i).foldl (accChild (get_all_child_locations db fuel)) (some (childIds db i))

/-- The recursion never completes, whatever depth it is allowed. -/
def getAllChildDiverges (db : List Loc) (i : Nat) : Prop :=
  ∀ fuel, get_all_child_locations db fuel i = none

/-- Two locations whose parent links form a cycle (only producible by
out-of-band mutation; the edit view forbids it). -/
def cycleDb : List Loc := [⟨1, "X", some 2⟩, ⟨2, "Y", some 1⟩]

/-- A two-node parent chain: P with child Q. -/
def chainDb : List Loc := [⟨1, "P", none⟩, ⟨2, "Q", some 1⟩]

/-- A depth measure for `chainDb`, decreasing from parent to child. -/
def chainMeasure (i : Nat) : Nat := if i = 2 then 0 else 1

/-! ## Pagination (list_views.py)

Page numbers arrive as request strings; `PageParam` is the parsed
input: `notInt` for a missing or unparseable value, `int n` for one
Python `int()` accepts. -/

inductive PageParam
  | notInt
  | int (n : Int)
deriving DecidableEq

/-- Django `Paginator.get_page`, used by `locationlist` and `lifelist`
(their surrounding `try/except` never fires): a non-integer gives page 1,
an integer below 1 or above `num_pages` gives the last page. -/
def getPageNumber (p : PageParam) (numPages : Nat) : Nat :=
  match p with
  | .notInt => 1
  | .int n =>
    if n < 1 then numPages
    else if (numPages : Int) < n then numPages
    else n.toNat

/-- `yearlist`'s and `monthlist`'s `paginator.page(page)` under
`except Exception: page_obj = paginator.page(1)`: any invalid or
out-of-range page gives page 1. -/
def pageOrFirst (p : PageParam) (numPages : Nat) : Nat :=
  match p with
  | .notInt => 1
  | .int n => if n < 1 ∨ (numPages : Int) < n then 1 else n.toNat

/-- `lifelist`'s whitelist of `page_size` values. -/
def valid_page_sizes : List String := ["10", "20", "50", "all"]

/-- `lifelist`: a `page_size` outside the whitelist becomes `'20'`. -/
def normalize_page_size (s : String) : String :=
  if s ∈ valid_page_sizes then s else "20"

/-- `lifelist`'s pagination branch: `'all'` returns every entry with no
paginator; otherwise Django slices `[(page-1)*n, page*n)` with
`num_pages = max 1 ⌈total/n⌉`.  Returns the entries shown and
`is_paginated`. -/
def lifelist_shown (entries : List SummaryEntry) (page_size_raw : String)
    (page : PageParam) : List SummaryEntry × Bool :=
  let ps := normalize_page_size page_size_raw
  if ps = "all" then (entries, false)
  else
    let n := ps.toNat?.getD 20
    let numPages := max 1 ((entries.length + n - 1) / n)
    let pg := getPageNumber page numPages
    ((entries.drop ((pg - 1) * n)).take n, 1 < numPages)

/-! ## The application store and the mutating views -/

/-- The record store: one list per table, in row order. -/
structure AppState where
  birds : List BirdRec
  locations : List Loc
  trips : List TripRec
  sightings : List Sighting
deriving DecidableEq

/-- `trip_delete`'s explicit dereference step:
`Sighting.objects.filter(trip=trip).update(trip=None)`. -/
def dereferenceSightings (tid : Nat) (st : AppState) : AppState :=
  { st with sightings := st.sightings.map (fun s =>
      if s.trip = some tid then { s with trip := none } else s) }

/-- `trip.delete()`: the trip row goes, and `Sighting.trip` being
`on_delete=CASCADE`, any sighting still pointing at it goes with it. -/
def deleteTripRow (tid : Nat) (st : AppState) : AppState :=
  { st with
    trips := st.trips.filter (fun t => decide (t.id ≠ tid)),
    sightings := st.sightings.filter (fun s => decide (s.trip ≠ some tid)) }

/-- `trip_delete` (POST): look the trip up (404 leaves the store alone),
dereference its sightings, then delete the trip row. -/
def trip_delete (tid : Nat) (st : AppState) : AppState :=
  if (st.trips.find? (fun t => t.id == tid)).isSome then
    deleteTripRow tid (dereferenceSightings tid st)
  else st

/-- A POST to the sighting form, after field parsing: `none` is a missing
or unparseable field. -/
structure SightingSubmission where
  bird : Option Nat
  location : Option Nat
  trip : Option Nat
  date_seen : Option Date
  heard_not_seen : Bool
  count : Option Int
  notes : String
deriving DecidableEq

/-- `SightingForm.is_valid()` and the cleaned record: `bird`, `location`,
`date_seen` and `count` are required, the foreign keys must exist, `trip`
may be empty.  No bound is checked on `count`: the form's only `min: 1` is
an HTML widget attribute, which Django does not validate server-side. -/
def sighting_form_clean (st : AppState) (sub : SightingSubmission) : Option Sighting :=
  match sub.bird, sub.location, sub.date_seen, sub.count with
  | some b, some l, some dt, some c =>
    if ((st.birds.find? (fun x => x.id == b)).isSome
        && (st.locations.find? (fun x => x.id == l)).isSome
        && (match sub.trip with
            | none => true
            | some t => (st.trips.find? (fun x => x.id == t)).isSome)) then
      some ⟨st.sightings.length, b, l, sub.trip, dt, sub.heard_not_seen, c, sub.notes⟩
    else none
  | _, _, _, _ => none

/-- `add_sighting` (POST): save the cleaned record, or leave the store
alone when the form is invalid.  Returns the store and whether it saved. -/
def add_sighting (st : AppState) (sub : SightingSubmission) : AppState × Bool :=
  match sighting_form_clean st sub with
  | some s => ({ st with sightings := st.sightings ++ [s] }, true)
  | none => (st, false)

/-- A POST to the location form, after field parsing. -/
structure LocSubmission where
  location_name : String
  parent_location : Option Nat
deriving DecidableEq

inductive EditResult
  | success
  | notFound
  | invalidForm
  | circularError
deriving DecidableEq

/-- `Location.objects.get(id=i)` over the store. -/
def findLoc (db : List Loc) (i : Nat) : Option Loc :=
  db.find? (fun l => l.id == i)

/-- `location_edit`'s while-loop: walk from `cur` upward through
`parent_location`, true when it reaches `target`.  The source loop has no
bound; the fuel passed by `location_edit` (`db.length + 1`) covers every
duplicate-free parent chain, which the edit views maintain. -/
def walkHits (db : List Loc) (target : Nat) : Nat → Nat → Bool
  | 0, _ => false
  | fuel + 1, cur =>
    if cur = target then true
    else
      match (findLoc db cur).bind (fun l => l.parent_location) with
      | none => false
      | some p => walkHits db target fuel p

/-- `location_edit` (POST): 404 when the location is missing; the form
requires a name and an existing parent; a proposed parent whose upward
chain reaches the edited location is rejected with the circular-reference
error and no write; otherwise the row is updated. -/
def location_edit (db : List Loc) (locId : Nat) (sub : LocSubmission) :
    EditResult × List Loc :=
  if (findLoc db locId).isSome = false then (.notFound, db)
  else if sub.location_name = "" then (.invalidForm, db)
  else
    match sub.parent_location with
    | none =>
      (.success, db.map (fun l =>
        if l.id = locId then ⟨l.id, sub.location_name, none⟩ else l))
    | some np =>
      if (findLoc db np).isSome = false then (.invalidForm, db)
      else if walkHits db locId (db.length + 1) np then (.circularError, db)
      else
        (.success, db.map (fun l =>
          if l.id = locId then ⟨l.id, sub.location_name, some np⟩ else l))

/-- The A→B→C parent chain of the cycle-rejection scenario: C's parent is
B, B's parent is A. -/
def abcDb : List Loc := [⟨1, "A", none⟩, ⟨2, "B", some 1⟩, ⟨3, "C", some 2⟩]

/-- A delete view's response: 404, or the JSON `{success, message}`. -/
inductive DeleteOutcome
  | notFound
  | json (success : Bool) (message : String)
deriving DecidableEq

/-- `bird_delete` (AJAX POST): refuse while sightings reference the bird,
naming how many block it; otherwise delete the row (`on_delete=CASCADE`
cascades to the bird's sightings, of which the guard left none). -/
def bird_delete (bid : Nat) (st : AppState) : DeleteOutcome × AppState :=
  match st.birds.find? (fun x => x.id == bid) with
  | none => (.notFound, st)
  | some b =>
    let n := (st.sightings.filter (fun s => s.bird == bid)).length
    if 0 < n then
      (.json false ("Cannot delete \"" ++ b.english_name ++ "\" because it has "
        ++ toString n ++ " sighting(s). Please delete the sightings first."), st)
    else
      (.json true ("Bird \"" ++ b.english_name ++ "\" has been deleted successfully."),
       { st with birds := st.birds.filter (fun x => decide (x.id ≠ bid)) })

/-- `location_delete` (AJAX POST): refuse while sightings, then child
locations, reference the location, naming how many block it; otherwise
delete the row (the guards left the cascade nothing to remove). -/
def location_delete (lid : Nat) (st : AppState) : DeleteOutcome × AppState :=
  match findLoc st.locations lid with
  | none => (.notFound, st)
  | some loc =>
    let n := (st.sightings.filter (fun s => s.location == lid)).length
    if 0 < n then
      (.json false ("Cannot delete \"" ++ loc.location_name ++ "\" because it has "
        ++ toString n ++ " sighting(s). Please delete or reassign the sightings first."), st)
    else
      let c := (st.locations.filter (fun l => l.parent_location == some lid)).length
      if 0 < c then
        (.json false ("Cannot delete \"" ++ loc.location_name ++ "\" because it has "
          ++ toString c ++ " child location(s). Please delete or reassign the child locations first."), st)
      else
        (.json true ("Location \"" ++ loc.location_name ++ "\" has been deleted successfully."),
         { st with locations := st.locations.filter (fun l => decide (l.id ≠ lid)) })

/-! ## Concrete scenario data -/

/-- The spec's §8 scenario: Robin (bird 1) on 2023-01-05 and 2023-06-01,
Sparrow (bird 2) on 2023-03-01. -/
def demoSightings : List Sighting :=
  [⟨0, 1, 1, none, ⟨2023, 1, 5⟩, false, 1, ""⟩,
   ⟨1, 1, 1, none, ⟨2023, 6, 1⟩, false, 1, ""⟩,
   ⟨2, 2, 1, none, ⟨2023, 3, 1⟩, false, 1, ""⟩]

/-- Two birds (2 before 1 in row order) last seen on the same date. -/
def tieSightings : List Sighting :=
  [⟨0, 2, 1, none, ⟨2023, 5, 5⟩, false, 1, ""⟩,
   ⟨1, 1, 1, none, ⟨2023, 5, 5⟩, false, 1, ""⟩]

/-- The spec's §8 delta scenario: Robin (1) in 2022, Robin and Sparrow (2)
in 2023. -/
def deltaSightings : List Sighting :=
  [⟨0, 1, 1, none, ⟨2022, 7, 1⟩, false, 1, ""⟩,
   ⟨1, 1, 1, none, ⟨2023, 2, 1⟩, false, 1, ""⟩,
   ⟨2, 2, 1, none, ⟨2023, 3, 1⟩, false, 1, ""⟩]

/-- A store with one trip (id 5) referenced by one of two sightings. -/
def tripStore : AppState :=
  ⟨[], [],
   [⟨5, "Coast trip", ⟨2023, 1, 1⟩, ⟨2023, 1, 2⟩, ""⟩],
   [⟨0, 1, 1, some 5, ⟨2023, 1, 1⟩, false, 1, ""⟩,
    ⟨1, 1, 1, none, ⟨2023, 1, 2⟩, false, 2, "notes"⟩]⟩

/-- A store for the sighting form: one bird, one location, nothing else. -/
def formStore : AppState :=
  ⟨[⟨1, "Robin", none, none, none, none⟩], [⟨1, "Park", none⟩], [], []⟩

/-- A submission whose count is 0 and whose other fields are valid. -/
def countZeroSubmission : SightingSubmission :=
  ⟨some 1, some 1, none, some ⟨2023, 1, 1⟩, false, some 0, ""⟩

/-- A store where bird 1 and location 1 each have a sighting and
location 1 has a child location. -/
def conflictStore : AppState :=
  ⟨[⟨1, "Robin", none, none, none, none⟩],
   [⟨1, "Park", none⟩, ⟨2, "Pond", some 1⟩],
   [],
   [⟨0, 1, 1, none, ⟨2023, 1, 1⟩, false, 1, ""⟩]⟩

/-! ## Properties of the grouping and ordering helpers -/

theorem dle_refl (a : Date) : dle a a := by unfold dle; omega

theorem dle_trans {a b c : Date} (hab : dle a b) (hbc : dle b c) : dle a c := by
  unfold dle at *; omega

theorem dle_of_not_dle {a b : Date} (h : ¬ dle a b) : dle b a := by
  unfold dle at *; omega

theorem dle_of_dlt {a b : Date} (h : dlt a b) : dle a b := by
  unfold dlt dle at *; omega

theorem mem_dedupFirst {x : Nat} : ∀ (l seen : List Nat),
    (x ∈ dedupFirst seen l ↔ x ∈ l ∧ x ∉ seen)
  | [], seen => by simp [dedupFirst]
  | a :: l, seen => by
    by_cases h : a ∈ seen
    · rw [dedupFirst, if_pos h, mem_dedupFirst l seen]
      constructor
      · rintro ⟨hl, hs⟩; exact ⟨List.mem_cons_of_mem _ hl, hs⟩
      · rintro ⟨hx, hs⟩
        rcases List.mem_cons.mp hx with rfl | hl
        · exact absurd h hs
        · exact ⟨hl, hs⟩
    · rw [dedupFirst, if_neg h]
      constructor
      · intro hx
        rcases List.mem_cons.mp hx with rfl | hl
        · exact ⟨List.mem_cons_self _ _, h⟩
        · obtain ⟨hml, hms⟩ := (mem_dedupFirst l (a :: seen)).mp hl
          exact ⟨List.mem_cons_of_mem _ hml,
            fun hs => hms (List.mem_cons_of_mem _ hs)⟩
      · rintro ⟨hx, hs⟩
        rcases List.mem_cons.mp hx with rfl | hl
        · exact List.mem_cons_self _ _
        · by_cases hxa : x = a
          · exact hxa ▸ List.mem_cons_self _ _
          · exact List.mem_cons_of_mem _ ((mem_dedupFirst l (a :: seen)).mpr
              ⟨hl, fun hm => (List.mem_cons.mp hm).elim hxa hs⟩)

theorem nodup_dedupFirst : ∀ (l seen : List Nat), (dedupFirst seen l).Nodup
  | [], _ => List.nodup_nil
  | a :: l, seen => by
    by_cases h : a ∈ seen
    · rw [dedupFirst, if_pos h]; exact nodup_dedupFirst l seen
    · rw [dedupFirst, if_neg h]
      refine List.nodup_cons.mpr ⟨fun hmem => ?_, nodup_dedupFirst l (a :: seen)⟩
      exact ((mem_dedupFirst l (a :: seen)).mp hmem).2 (List.mem_cons_self _ _)

theorem minD_spec : ∀ (ds : List Date) (d : Date),
    minD d ds ∈ d :: ds ∧ ∀ x ∈ d :: ds, dle (minD d ds) x
  | [], d => by
    refine ⟨List.mem_cons_self _ _, fun x hx => ?_⟩
    rcases List.mem_cons.mp hx with rfl | h
    · exact dle_refl x
    · exact absurd h (List.not_mem_nil x)
  | y :: ys, d => by
    have hstep : minD d (y :: ys) = minD (if dle y d then y else d) ys := rfl
    by_cases h : dle y d
    · rw [hstep, if_pos h]
      obtain ⟨hmem, hbound⟩ := minD_spec ys y
      constructor
      · rcases List.mem_cons.mp hmem with he | hys
        · rw [he]; exact List.mem_cons_of_mem _ (List.mem_cons_self _ _)
        · exact List.mem_cons_of_mem _ (List.mem_cons_of_mem _ hys)
      · intro x hx
        rcases List.mem_cons.mp hx with rfl | hx'
        · exact dle_trans (hbound _ (List.mem_cons_self _ _)) h
        rcases List.mem_cons.mp hx' with rfl | hys
        · exact hbound _ (List.mem_cons_self _ _)
        · exact hbound _ (List.mem_cons_of_mem _ hys)
    · rw [hstep, if_neg h]
      obtain ⟨hmem, hbound⟩ := minD_spec ys d
      constructor
      · rcases List.mem_cons.mp hmem with he | hys
        · rw [he]; exact List.mem_cons_self _ _
        · exact List.mem_cons_of_mem _ (List.mem_cons_of_mem _ hys)
      · intro x hx
        rcases List.mem_cons.mp hx with rfl | hx'
        · exact hbound _ (List.mem_cons_self _ _)
        rcases List.mem_cons.mp hx' with rfl | hys
        · exact dle_trans (hbound _ (List.mem_cons_self _ _)) (dle_of_not_dle h)
        · exact hbound _ (List.mem_cons_of_mem _ hys)

theorem maxD_spec : ∀ (ds : List Date) (d : Date),
    maxD d ds ∈ d :: ds ∧ ∀ x ∈ d :: ds, dle x (maxD d ds)
  | [], d => by
    refine ⟨List.mem_cons_self _ _, fun x hx => ?_⟩
    rcases List.mem_cons.mp hx with rfl | h
    · exact dle_refl x
    · exact absurd h (List.not_mem_nil x)
  | y :: ys, d => by
    have hstep : maxD d (y :: ys) = maxD (if dle d y then y else d) ys := rfl
    by_cases h : dle d y
    · rw [hstep, if_pos h]
      obtain ⟨hmem, hbound⟩ := maxD_spec ys y
      constructor
      · rcases List.mem_cons.mp hmem with he | hys
        · rw [he]; exact List.mem_cons_of_mem _ (List.mem_cons_self _ _)
        · exact List.mem_cons_of_mem _ (List.mem_cons_of_mem _ hys)
      · intro x hx
        rcases List.mem_cons.mp hx with rfl | hx'
        · exact dle_trans h (hbound _ (List.mem_cons_self _ _))
        rcases List.mem_cons.mp hx' with rfl | hys
        · exact hbound _ (List.mem_cons_self _ _)
        · exact hbound _ (List.mem_cons_of_mem _ hys)
    · rw [hstep, if_neg h]
      obtain ⟨hmem, hbound⟩ := maxD_spec ys d
      constructor
      · rcases List.mem_cons.mp hmem with he | hys
        · rw [he]; exact List.mem_cons_self _ _
        · exact List.mem_cons_of_mem _ (List.mem_cons_of_mem _ hys)
      · intro x hx
        rcases List.mem_cons.mp hx with rfl | hx'
        · exact hbound _ (List.mem_cons_self _ _)
        rcases List.mem_cons.mp hx' with rfl | hys
        · exact dle_trans (dle_of_not_dle h) (hbound _ (List.mem_cons_self _ _))
        · exact hbound _ (List.mem_cons_of_mem _ hys)

/-- Row `a` is at least as recent as row `b`. -/
def rowGE (a b : Row) : Prop := dle b.last a.last

theorem mem_insertDesc {x r : Row} : ∀ {l : List Row},
    x ∈ insertDesc r l ↔ x = r ∨ x ∈ l
  | [] => by simp [insertDesc]
  | y :: ys => by
    rw [insertDesc]
    by_cases h : dle y.last r.last
    · rw [if_pos h]
      simp [List.mem_cons]
    · rw [if_neg h]
      rw [List.mem_cons, List.mem_cons, mem_insertDesc]
      tauto

theorem pairwise_insertDesc {r : Row} : ∀ {l : List Row},
    List.Pairwise rowGE l → List.Pairwise rowGE (insertDesc r l)
  | [], _ => List.pairwise_singleton _ _
  | y :: ys, h => by
    obtain ⟨hy, hys⟩ := List.pairwise_cons.mp h
    rw [insertDesc]
    by_cases hc : dle y.last r.last
    · rw [if_pos hc]
      refine List.pairwise_cons.mpr ⟨fun z hz => ?_, h⟩
      rcases List.mem_cons.mp hz with rfl | hzys
      · exact hc
      · exact dle_trans (hy _ hzys) hc
    · rw [if_neg hc]
      refine List.pairwise_cons.mpr ⟨fun z hz => ?_, pairwise_insertDesc hys⟩
      rcases mem_insertDesc.mp hz with rfl | hzys
      · exact dle_of_not_dle hc
      · exact hy _ hzys

theorem sorted_orderRows : ∀ (l : List Row), List.Pairwise rowGE (orderRows l)
  | [] => List.Pairwise.nil
  | _a :: l => pairwise_insertDesc (sorted_orderRows l)

theorem perm_insertDesc (r : Row) : ∀ (l : List Row), List.Perm (insertDesc r l) (r :: l)
  | [] => List.Perm.refl _
  | y :: ys => by
    rw [insertDesc]
    by_cases h : dle y.last r.last
    · rw [if_pos h]
    · rw [if_neg h]
      exact ((perm_insertDesc r ys).cons y).trans (List.Perm.swap r y ys)

theorem perm_orderRows : ∀ (l : List Row), List.Perm (orderRows l) l
  | [] => List.Perm.refl _
  | a :: l => (perm_insertDesc a (orderRows l)).trans ((perm_orderRows l).cons a)

theorem mem_orderRows {x : Row} (l : List Row) : x ∈ orderRows l ↔ x ∈ l :=
  (perm_orderRows l).mem_iff

theorem find?_isSome_of_mem {α : Type} {p : α → Bool} :
    ∀ {l : List α} {x : α}, x ∈ l → p x = true → (l.find? p).isSome = true
  | a :: l, x, hx, hp => by
    rw [List.find?]
    by_cases ha : p a
    · rw [ha]; rfl
    · rcases List.mem_cons.mp hx with rfl | hl
      · exact absurd hp (by simpa using ha)
      · simpa [ha] using find?_isSome_of_mem hl hp

theorem mkRow_bird (ss : List Sighting) (b : Nat) : (mkRow ss b).bird = b := by
  unfold mkRow
  cases datesOf b ss <;> rfl

theorem datesOf_ne_nil {b : Nat} {ss : List Sighting}
    (h : b ∈ ss.map (fun s => s.bird)) : datesOf b ss ≠ [] := by
  obtain ⟨s, hs, rfl⟩ := List.mem_map.mp h
  intro hnil
  have : s.date_seen ∈ datesOf s.bird ss := by
    refine List.mem_map.mpr ⟨s, List.mem_filter.mpr ⟨hs, by simp⟩, rfl⟩
  rw [hnil] at this
  exact (List.not_mem_nil _) this

theorem mem_datesOf {b : Nat} {ss : List Sighting} {x : Date} :
    x ∈ datesOf b ss ↔ ∃ s ∈ ss, s.bird = b ∧ s.date_seen = x := by
  unfold datesOf
  constructor
  · intro hx
    obtain ⟨s, hs, rfl⟩ := List.mem_map.mp hx
    obtain ⟨hss, hb⟩ := List.mem_filter.mp hs
    exact ⟨s, hss, by simpa using hb, rfl⟩
  · rintro ⟨s, hs, hb, rfl⟩
    exact List.mem_map.mpr ⟨s, List.mem_filter.mpr ⟨hs, by simp [hb]⟩, rfl⟩

theorem mem_childIds {db : List Loc} {i c : Nat} :
    c ∈ childIds db i ↔ ∃ x ∈ db, x.parent_location = some i ∧ x.id = c := by
  unfold childIds
  constructor
  · intro hc
    obtain ⟨x, hx, rfl⟩ := List.mem_map.mp hc
    obtain ⟨hxm, hxp⟩ := List.mem_filter.mp hx
    exact ⟨x, hxm, by simpa using hxp, rfl⟩
  · rintro ⟨x, hx, hp, rfl⟩
    exact List.mem_map.mpr ⟨x, List.mem_filter.mpr ⟨hx, by simp [hp]⟩, rfl⟩

theorem foldl_accChild_isSome {f : Nat → Option (List Nat)} :
    ∀ (cs : List Nat) (acc : List Nat), (∀ c ∈ cs, (f c).isSome = true) →
      ((cs.foldl (accChild f) (some acc)).isSome = true)
  | [], _, _ => rfl
  | c :: cs, acc, h => by
    obtain ⟨r, hr⟩ := Option.isSome_iff_exists.mp (h c (List.mem_cons_self _ _))
    have hstep : accChild f (some acc) c = some (acc ++ r) := by
      simp [accChild, hr]
    rw [List.foldl_cons, hstep]
    exact foldl_accChild_isSome cs (acc ++ r) (fun x hx => h x (List.mem_cons_of_mem _ hx))

theorem get_all_child_terminates_aux (db : List Loc) (m : Nat → Nat)
    (hm : ∀ l c, c ∈ childIds db l → m c < m l) :
    ∀ (n i : Nat), m i < n → (get_all_child_locations db n i).isSome = true := by
  intro n
  induction n with
  | zero => intro i h; omega
  | succ n ih =>
    intro i hi
    rw [get_all_child_locations]
    exact foldl_accChild_isSome _ _ (fun c hc => ih c (by have := hm i c hc; omega))

theorem get_all_child_cycle_none :
    ∀ n, get_all_child_locations cycleDb n 1 = none
      ∧ get_all_child_locations cycleDb n 2 = none
  | 0 => ⟨rfl, rfl⟩
  | n + 1 => by
    obtain ⟨h1, h2⟩ := get_all_child_cycle_none n
    constructor
    · show (childIds cycleDb 1).foldl
          (accChild (get_all_child_locations cycleDb n)) (some (childIds cycleDb 1)) = none
      have hc : childIds cycleDb 1 = [2] := by decide
      rw [hc]
      simp [List.foldl_cons, List.foldl_nil, accChild, h2]
    · show (childIds cycleDb 2).foldl
          (accChild (get_all_child_locations cycleDb n)) (some (childIds cycleDb 2)) = none
      have hc : childIds cycleDb 2 = [1] := by decide
      rw [hc]
      simp [List.foldl_cons, List.foldl_nil, accChild, h1]

theorem map_bird_mkRow (ss : List Sighting) :
    ∀ (l : List Nat), (l.map (mkRow ss)).map (fun r => r.bird) = l
  | [] => rfl
  | b :: l => by
    simp only [List.map_cons, mkRow_bird, List.cons.injEq]
    exact ⟨trivial, map_bird_mkRow ss l⟩

theorem length_filter_dedup_sdiff (A B : List Nat) :
    ((dedupFirst [] A).filter (fun b => decide (b ∉ B))).length
      = (A.toFinset \ B.toFinset).card := by
  have hnd : ((dedupFirst [] A).filter (fun b => decide (b ∉ B))).Nodup :=
    (nodup_dedupFirst A []).filter _
  have hset : ((dedupFirst [] A).filter (fun b => decide (b ∉ B))).toFinset
      = A.toFinset \ B.toFinset := by
    ext b
    simp only [List.mem_toFinset, List.mem_filter, Finset.mem_sdiff, decide_eq_true_eq]
    rw [mem_dedupFirst]
    simp
  rw [← hset]
  exact (List.toFinset_card_of_nodup hnd).symm

/-! ## The claims -/

/-- C1 counterexample: `get_all_child_locations` has no depth cap, so on
the two-location parent cycle `cycleDb` (producible only by out-of-band
mutation) the recursion never completes, whatever depth it is allowed:
the claim that a defensive depth cap makes the traversal terminate on
cyclic data is false of the source. -/
theorem c1_cycle_counterexample : getAllChildDiverges cycleDb 1 :=
  fun n => (get_all_child_cycle_none n).1

/-- C1 (amended): on cycle-free data — any data admitting a depth measure
that decreases from a location to its children, as every forest does —
`get_all_child_locations` terminates and returns a (finite) list; but the
source has no defensive depth cap, and on a cyclic parent chain the
recursion does not terminate (`c1_cycle_counterexample`). -/
theorem c1_acyclic_terminates (db : List Loc) (m : Nat → Nat)
    (hm : ∀ l c, c ∈ childIds db l → m c < m l) (i : Nat) :
    (get_all_child_locations db (m i + 1) i).isSome = true :=
  get_all_child_terminates_aux db m hm (m i + 1) i (by omega)

/-- C1 witness: on the two-location chain P → Q the traversal completes
at the measure-derived depth. -/
theorem c1_acyclic_terminates_witness :
    (get_all_child_locations chainDb (chainMeasure 1 + 1) 1).isSome = true := by
  refine c1_acyclic_terminates chainDb chainMeasure ?_ 1
  intro l c hc
  obtain ⟨x, hx, hp, rfl⟩ := mem_childIds.mp hc
  have hx' : x = ⟨1, "P", none⟩ ∨ x = ⟨2, "Q", some 1⟩ := by
    simpa [chainDb] using hx
  rcases hx' with rfl | rfl
  · exact absurd hp (by simp)
  · have : l = 1 := by simpa using hp.symm
    subst this
    decide

/-- C2: for every sighting list the life-list species summary contains
exactly the birds occurring in it (each once), maps each bird to the
minimum and maximum of its `date_seen` values and to the number of its
sightings, yields exactly the stated Robin/Sparrow summaries on the
spec's scenario, and the empty summary on the empty list. -/
theorem c2_species_summary (ss : List Sighting) :
    (∀ e ∈ lifelist_entries ss,
        e.bird ∈ ss.map (fun s => s.bird)
        ∧ (e.first_seen ∈ datesOf e.bird ss ∧ ∀ x ∈ datesOf e.bird ss, dle e.first_seen x)
        ∧ (e.last_seen ∈ datesOf e.bird ss ∧ ∀ x ∈ datesOf e.bird ss, dle x e.last_seen)
        ∧ e.total = (ss.filter (fun s => decide (s.bird = e.bird))).length)
    ∧ (∀ b ∈ ss.map (fun s => s.bird), ∃ e ∈ lifelist_entries ss, e.bird = b)
    ∧ ((lifelist_entries ss).map (fun e => e.bird)).Nodup
    ∧ lifelist_entries demoSightings =
        [⟨1, ⟨2023, 1, 5⟩, ⟨2023, 6, 1⟩, 2⟩, ⟨2, ⟨2023, 3, 1⟩, ⟨2023, 3, 1⟩, 1⟩]
    ∧ lifelist_entries [] = [] := by
  refine ⟨?_, ?_, ?_, by decide, by decide⟩
  · intro e he
    obtain ⟨r, hrkept, rfl⟩ := List.mem_map.mp he
    obtain ⟨hrsorted, _hguard⟩ := List.mem_filter.mp hrkept
    have hrrows : r ∈ birdAggRows ss := (mem_orderRows _).mp hrsorted
    obtain ⟨b, hb, rfl⟩ := List.mem_map.mp hrrows
    have hbmem : b ∈ ss.map (fun s => s.bird) := ((mem_dedupFirst _ _).mp hb).1
    cases hds : datesOf b ss with
    | nil => exact absurd hds (datesOf_ne_nil hbmem)
    | cons d ds =>
      have hrow : mkRow ss b = ⟨b, minD d ds, maxD d ds⟩ := by
        unfold mkRow; rw [hds]
      rw [hrow]
      refine ⟨hbmem, ⟨?_, ?_⟩, ⟨?_, ?_⟩, rfl⟩
      · show minD d ds ∈ datesOf b ss
        rw [hds]; exact (minD_spec ds d).1
      · show ∀ x ∈ datesOf b ss, dle (minD d ds) x
        rw [hds]; exact (minD_spec ds d).2
      · show maxD d ds ∈ datesOf b ss
        rw [hds]; exact (maxD_spec ds d).1
      · show ∀ x ∈ datesOf b ss, dle x (maxD d ds)
        rw [hds]; exact (maxD_spec ds d).2
  · intro b hbmem
    have hb : b ∈ dedupFirst [] (ss.map (fun s => s.bird)) :=
      (mem_dedupFirst _ _).mpr ⟨hbmem, List.not_mem_nil b⟩
    have hrows : mkRow ss b ∈ birdAggRows ss := List.mem_map_of_mem _ hb
    have hsorted : mkRow ss b ∈ orderRows (birdAggRows ss) := (mem_orderRows _).mpr hrows
    cases hds : datesOf b ss with
    | nil => exact absurd hds (datesOf_ne_nil hbmem)
    | cons d ds =>
      have hrow : mkRow ss b = ⟨b, minD d ds, maxD d ds⟩ := by
        unfold mkRow; rw [hds]
      have hfmem : minD d ds ∈ datesOf b ss := by
        rw [hds]; exact (minD_spec ds d).1
      obtain ⟨s, hsmem, hsb, hsd⟩ := mem_datesOf.mp hfmem
      have hguard : firstGuard ss (mkRow ss b) = true := by
        unfold firstGuard
        apply find?_isSome_of_mem hsmem
        rw [hrow]
        simp [hsb, hsd]
      refine ⟨toEntry ss (mkRow ss b),
        List.mem_map_of_mem _ (List.mem_filter.mpr ⟨hsorted, hguard⟩), ?_⟩
      rw [hrow]
      rfl
  · have h1 : (lifelist_entries ss).map (fun e => e.bird)
        = ((orderRows (birdAggRows ss)).filter (firstGuard ss)).map (fun r => r.bird) := by
      unfold lifelist_entries
      rw [List.map_map]
      rfl
    have hnodup_rows : ((birdAggRows ss).map (fun r => r.bird)).Nodup := by
      unfold birdAggRows
      rw [map_bird_mkRow]
      exact nodup_dedupFirst _ _
    have hperm : List.Perm ((orderRows (birdAggRows ss)).map (fun r => r.bird))
        ((birdAggRows ss).map (fun r => r.bird)) :=
      (perm_orderRows _).map _
    have hnodup_sorted : ((orderRows (birdAggRows ss)).map (fun r => r.bird)).Nodup :=
      hperm.nodup_iff.mpr hnodup_rows
    rw [h1]
    exact List.Nodup.sublist ((List.filter_sublist _).map _) hnodup_sorted

/-- C3: `new_species` in both `yearlist` and `monthlist` is exactly the
cardinality of the set difference between the birds of the current window
and the birds of sightings dated strictly before the window start
(strictly earlier years, respectively dates before the first of the
month); on the spec's scenario (Robin in 2022, Robin and Sparrow in 2023)
both deltas are 1. -/
theorem c3_new_species_delta :
    (∀ (year : Nat) (ss : List Sighting),
        yearlist_new_species year ss =
          ((((ss.filter (fun s => decide (s.date_seen.y = year))).map (fun s => s.bird)).toFinset)
            \ (((ss.filter (fun s => decide (s.date_seen.y < year))).map (fun s => s.bird)).toFinset)).card)
    ∧ (∀ (year month : Nat) (ss : List Sighting),
        monthlist_new_species year month ss =
          ((((ss.filter (fun s => decide (s.date_seen.y = year ∧ s.date_seen.m = month))).map
              (fun s => s.bird)).toFinset)
            \ (((ss.filter (fun s => decide (dlt s.date_seen ⟨year, month, 1⟩))).map
              (fun s => s.bird)).toFinset)).card)
    ∧ yearlist_new_species 2023 deltaSightings = 1
    ∧ monthlist_new_species 2023 3 deltaSightings = 1 := by
  refine ⟨fun year ss => ?_, fun year month ss => ?_, by decide, by decide⟩
  · exact length_filter_dedup_sdiff _ _
  · exact length_filter_dedup_sdiff _ _

/-- C4 counterexample: there is no single out-of-range policy.  With two
pages, `locationlist`/`lifelist` resolution (`Paginator.get_page`) sends
page 0 to the last page (2), not page 1; and at the same input (page 5 of
2 pages) `yearlist`/`monthlist` give page 1 while `locationlist`/`lifelist`
give page 2. -/
theorem c4_counterexample :
    getPageNumber (.int 0) 2 = 2 ∧ pageOrFirst (.int 5) 2 = 1
      ∧ getPageNumber (.int 5) 2 = 2 := by decide

/-- C4 (amended): the source has two out-of-range policies, each applied
consistently within its view group: `yearlist`/`monthlist` clamp every
non-numeric, below-1 or beyond-last page to page 1, while
`locationlist`/`lifelist` clamp a non-numeric page to page 1 and a numeric
below-1 or beyond-last page to the last page; in range both return the
requested page. -/
theorem c4_two_policies :
    (∀ (np : Nat), getPageNumber .notInt np = 1 ∧ pageOrFirst .notInt np = 1)
    ∧ (∀ (n : Int) (np : Nat), (n < 1 ∨ (np : Int) < n) →
        pageOrFirst (.int n) np = 1 ∧ getPageNumber (.int n) np = np)
    ∧ (∀ (n : Int) (np : Nat), 1 ≤ n → n ≤ (np : Int) →
        pageOrFirst (.int n) np = n.toNat ∧ getPageNumber (.int n) np = n.toNat) := by
  refine ⟨fun np => ⟨rfl, rfl⟩, fun n np h => ?_, fun n np h1 h2 => ?_⟩
  · constructor
    · show (if n < 1 ∨ (np : Int) < n then 1 else n.toNat) = 1
      rw [if_pos h]
    · show (if n < 1 then np else if (np : Int) < n then np else n.toNat) = np
      rcases h with h | h
      · rw [if_pos h]
      · rw [if_neg (by omega), if_pos h]
  · constructor
    · show (if n < 1 ∨ (np : Int) < n then 1 else n.toNat) = n.toNat
      rw [if_neg (by omega)]
    · show (if n < 1 then np else if (np : Int) < n then np else n.toNat) = n.toNat
      rw [if_neg (by omega), if_neg (by omega)]

/-- C5 counterexample: the summary ordering applies no bird-id tiebreak.
On `tieSightings` (birds 2 and 1, equal `last_seen`) the output keeps the
group order — bird 2 before bird 1 — so it is not ordered by bird id
ascending on equal `last_seen`. -/
theorem c5_counterexample :
    ¬ List.Pairwise (fun a b : SummaryEntry =>
        dlt b.last_seen a.last_seen ∨ (a.last_seen = b.last_seen ∧ a.bird < b.bird))
      (lifelist_entries tieSightings) := by decide

/-- C5 (amended): the output is sorted descending by `last_seen` (and as a
pure function of the sighting list the ordering is reproducible), but
entries with equal `last_seen` appear in the record store's group order —
the source applies no secondary bird-id sort. -/
theorem c5_sorted_by_recency (ss : List Sighting) :
    List.Pairwise (fun a b : SummaryEntry => dle b.last_seen a.last_seen)
      (lifelist_entries ss) := by
  unfold lifelist_entries
  rw [List.pairwise_map]
  have hsorted : List.Pairwise rowGE ((orderRows (birdAggRows ss)).filter (firstGuard ss)) :=
    List.Pairwise.sublist (List.filter_sublist _) (sorted_orderRows _)
  exact List.Pairwise.imp (fun h => h) hsorted

/-- C5 witness: sortedness at the concrete tie scenario. -/
theorem c5_sorted_by_recency_witness :
    List.Pairwise (fun a b : SummaryEntry => dle b.last_seen a.last_seen)
      (lifelist_entries tieSightings) :=
  c5_sorted_by_recency tieSightings

/-- C6: deleting a trip removes only the trip row.  The view dereferences
first, so although `Sighting.trip` is `on_delete=CASCADE`, after the
delete every sighting that referenced the trip still exists, its trip
reference nulled, every other field unchanged, and no sighting is
deleted (the count is preserved). -/
theorem c6_trip_delete_frame (tid : Nat) (st : AppState)
    (h : (st.trips.find? (fun t => t.id == tid)).isSome = true) :
    (trip_delete tid st).sightings
        = st.sightings.map (fun s => if s.trip = some tid then { s with trip := none } else s)
      ∧ (trip_delete tid st).sightings.length = st.sightings.length
      ∧ (∀ s ∈ st.sightings, ∃ s' ∈ (trip_delete tid st).sightings,
          s'.id = s.id ∧ s'.bird = s.bird ∧ s'.location = s.location
          ∧ s'.date_seen = s.date_seen ∧ s'.heard_not_seen = s.heard_not_seen
          ∧ s'.count = s.count ∧ s'.notes = s.notes
          ∧ s'.trip = (if s.trip = some tid then none else s.trip))
      ∧ (trip_delete tid st).trips = st.trips.filter (fun t => decide (t.id ≠ tid)) := by
  have hmain : (trip_delete tid st).sightings
      = st.sightings.map (fun s => if s.trip = some tid then { s with trip := none } else s) := by
    unfold trip_delete deleteTripRow dereferenceSightings
    rw [if_pos h]
    apply List.filter_eq_self.mpr
    intro a ha
    obtain ⟨s, _hs, rfl⟩ := List.mem_map.mp ha
    by_cases hc : s.trip = some tid
    · simp [hc]
    · simp [hc]
  refine ⟨hmain, by rw [hmain, List.length_map], fun s hs => ?_, ?_⟩
  · refine ⟨if s.trip = some tid then { s with trip := none } else s, ?_, ?_⟩
    · rw [hmain]; exact List.mem_map_of_mem _ hs
    · by_cases hc : s.trip = some tid
      · simp [hc]
      · simp [hc]
  · unfold trip_delete deleteTripRow dereferenceSightings
    rw [if_pos h]

/-- C6 witness: the frame condition at the concrete store, where trip 5 is
referenced by one of two sightings. -/
theorem c6_trip_delete_frame_witness :
    (trip_delete 5 tripStore).sightings
      = tripStore.sightings.map
          (fun s => if s.trip = some 5 then { s with trip := none } else s) :=
  (c6_trip_delete_frame 5 tripStore (by decide)).1

/-- C7: `SightingForm` enforces no lower bound on `count` server-side (the
widget's `min: 1` is an HTML attribute only), so `add_sighting` accepts a
submission with count 0 and saves a sighting record whose count is 0 —
contradicting the claim that a count below 1 is rejected before saving. -/
theorem c7_count_zero_saved :
    (add_sighting formStore countZeroSubmission).2 = true
      ∧ sighting_form_clean formStore countZeroSubmission
          = some ⟨0, 1, 1, none, ⟨2023, 1, 1⟩, false, 0, ""⟩
      ∧ ∃ s ∈ (add_sighting formStore countZeroSubmission).1.sightings,
          s.count = 0 ∧ s.bird = 1 := by decide

/-- C8: whenever the upward walk from the proposed parent reaches the
location being edited, `location_edit` answers with the circular-reference
error and returns the store unchanged — no record is mutated. -/
theorem c8_cycle_edit_rejected (db : List Loc) (locId : Nat) (sub : LocSubmission)
    (np : Nat) (hp : sub.parent_location = some np)
    (hname : ¬ sub.location_name = "")
    (hloc : (findLoc db locId).isSome = true)
    (hnp : (findLoc db np).isSome = true)
    (hwalk : walkHits db locId (db.length + 1) np = true) :
    location_edit db locId sub = (.circularError, db) := by
  unfold location_edit
  rw [if_neg (by simp [hloc]), if_neg hname]
  simp only [hp]
  rw [if_neg (by simp [hnp]), if_pos hwalk]

/-- C8 witness: the A→B→C scenario — setting A's parent to C is rejected
with the circular-reference error and the store is exactly as before. -/
theorem c8_cycle_edit_rejected_witness :
    location_edit abcDb 1 ⟨"A", some 3⟩ = (.circularError, abcDb) :=
  c8_cycle_edit_rejected abcDb 1 ⟨"A", some 3⟩ 3 rfl (by decide) (by decide)
    (by decide) (by decide)

/-- C9: deleting a bird that still has sightings, or a location that still
has sightings or child locations, answers with a failure JSON whose
message names the blocking dependents (kind and count) and leaves the
store unchanged; with no dependents the delete succeeds and removes
exactly that row.  The concrete conjuncts exercise all three refusals and
one success on `conflictStore`. -/
theorem c9_delete_conflicts :
    (∀ (bid : Nat) (st : AppState) (b : BirdRec),
        st.birds.find? (fun x => x.id == bid) = some b →
        (0 < (st.sightings.filter (fun s => s.bird == bid)).length →
          bird_delete bid st
            = (.json false ("Cannot delete \"" ++ b.english_name ++ "\" because it has "
                ++ toString (st.sightings.filter (fun s => s.bird == bid)).length
                ++ " sighting(s). Please delete the sightings first."), st))
        ∧ ((st.sightings.filter (fun s => s.bird == bid)).length = 0 →
          bird_delete bid st
            = (.json true ("Bird \"" ++ b.english_name ++ "\" has been deleted successfully."),
               { st with birds := st.birds.filter (fun x => decide (x.id ≠ bid)) })))
    ∧ (∀ (lid : Nat) (st : AppState) (loc : Loc),
        findLoc st.locations lid = some loc →
        (0 < (st.sightings.filter (fun s => s.location == lid)).length →
          location_delete lid st
            = (.json false ("Cannot delete \"" ++ loc.location_name ++ "\" because it has "
                ++ toString (st.sightings.filter (fun s => s.location == lid)).length
                ++ " sighting(s). Please delete or reassign the sightings first."), st))
        ∧ ((st.sightings.filter (fun s => s.location == lid)).length = 0 →
          0 < (st.locations.filter (fun l => l.parent_location == some lid)).length →
          location_delete lid st
            = (.json false ("Cannot delete \"" ++ loc.location_name ++ "\" because it has "
                ++ toString (st.locations.filter (fun l => l.parent_location == some lid)).length
                ++ " child location(s). Please delete or reassign the child locations first."), st))
        ∧ ((st.sightings.filter (fun s => s.location == lid)).length = 0 →
          (st.locations.filter (fun l => l.parent_location == some lid)).length = 0 →
          location_delete lid st
            = (.json true ("Location \"" ++ loc.location_name ++ "\" has been deleted successfully."),
               { st with locations := st.locations.filter (fun l => decide (l.id ≠ lid)) })))
    ∧ bird_delete 1 conflictStore
        = (.json false "Cannot delete \"Robin\" because it has 1 sighting(s). Please delete the sightings first.",
           conflictStore)
    ∧ location_delete 1 conflictStore
        = (.json false "Cannot delete \"Park\" because it has 1 sighting(s). Please delete or reassign the sightings first.",
           conflictStore)
    ∧ location_delete 2 conflictStore
        = (.json true "Location \"Pond\" has been deleted successfully.",
           ⟨conflictStore.birds, [⟨1, "Park", none⟩], [], conflictStore.sightings⟩) := by
  refine ⟨fun bid st b hfind => ⟨?_, ?_⟩, fun lid st loc hfind => ⟨?_, ?_, ?_⟩,
    by decide, by decide, by decide⟩
  · intro hn
    unfold bird_delete
    simp only [hfind]
    rw [if_pos hn]
  · intro hz
    unfold bird_delete
    simp only [hfind]
    rw [if_neg (by omega)]
  · intro hn
    unfold location_delete
    simp only [hfind]
    rw [if_pos hn]
  · intro hz hc
    unfold location_delete
    simp only [hfind]
    rw [if_neg (by omega), if_pos hc]
  · intro hz hc
    unfold location_delete
    simp only [hfind]
    rw [if_neg (by omega), if_neg (by omega)]

/-- C10: `lifelist` replaces any `page_size` outside {10, 20, 50, all}
by '20' before paginating (the whitelisted values pass through, so the
view never fails over `page_size`), and `page_size = 'all'` returns every
entry in one unpaginated list. -/
theorem c10_page_size_whitelist (s : String) (entries : List SummaryEntry)
    (p : PageParam) :
    (s ∉ valid_page_sizes → normalize_page_size s = "20")
    ∧ (s ∈ valid_page_sizes → normalize_page_size s = s)
    ∧ normalize_page_size s ∈ valid_page_sizes
    ∧ lifelist_shown entries "all" p = (entries, false) := by
  refine ⟨fun h => ?_, fun h => ?_, ?_, rfl⟩
  · unfold normalize_page_size
    rw [if_neg h]
  · unfold normalize_page_size
    rw [if_pos h]
  · unfold normalize_page_size
    by_cases h : s ∈ valid_page_sizes
    · rw [if_pos h]; exact h
    · rw [if_neg h]; decide

end Birdapp
